import Mathlib

/-!
Shallow embedding over the real numbers of the Black-Scholes option pricing
engine of `src/black_scholes.rs`, together with proofs about the claims of the
specification.  Machine `f64` arithmetic is idealised to exact real arithmetic;
the numeric literals of the source (the Abramowitz-Stegun coefficients, the
solver constants 0.3, 0.001, 1e-10) are kept as exact rationals.
-/

noncomputable section

open Real

/-- Type of option: Call or Put (`enum OptionType`). -/
inductive OptionType where
  | Call
  | Put

/-- Greeks for option sensitivity analysis (`struct Greeks`). -/
structure Greeks where
  delta : ℝ
  gamma : ℝ
  vega : ℝ
  theta : ℝ
  rho : ℝ

/-- Black-Scholes model parameters (`struct BlackScholes`). -/
structure BlackScholes where
  spot_price : ℝ
  strike_price : ℝ
  time_to_expiry : ℝ
  risk_free_rate : ℝ
  volatility : ℝ
  dividend_yield : ℝ

/-- `BlackScholes::new`: validated construction, checks in source order with
short-circuiting, error strings verbatim from the source. -/
def BlackScholes.new (spot_price strike_price time_to_expiry risk_free_rate
    volatility dividend_yield : ℝ) : Except String BlackScholes :=
  if spot_price ≤ 0 then Except.error "Spot price must be positive"
  else if strike_price ≤ 0 then Except.error "Strike price must be positive"
  else if time_to_expiry ≤ 0 then Except.error "Time to expiry must be positive"
  else if volatility ≤ 0 then Except.error "Volatility must be positive"
  else Except.ok ⟨spot_price, strike_price, time_to_expiry, risk_free_rate,
    volatility, dividend_yield⟩

/-- `BlackScholes::d1`. -/
def BlackScholes.d1 (m : BlackScholes) : ℝ :=
  (Real.log (m.spot_price / m.strike_price)
      + (m.risk_free_rate - m.dividend_yield + 0.5 * m.volatility ^ 2)
        * m.time_to_expiry)
    / (m.volatility * Real.sqrt m.time_to_expiry)

/-- `BlackScholes::d2`. -/
def BlackScholes.d2 (m : BlackScholes) : ℝ :=
  m.d1 - m.volatility * Real.sqrt m.time_to_expiry

/-- `BlackScholes::erf`: Abramowitz-Stegun rational approximation, verbatim
structure of the source (sign split, absolute value, Horner polynomial). -/
def BlackScholes.erf (x : ℝ) : ℝ :=
  let a1 : ℝ := 0.254829592
  let a2 : ℝ := -0.284496736
  let a3 : ℝ := 1.421413741
  let a4 : ℝ := -1.453152027
  let a5 : ℝ := 1.061405429
  let p : ℝ := 0.3275911
  let sign : ℝ := if x < 0 then -1 else 1
  let x' : ℝ := |x|
  let t : ℝ := 1 / (1 + p * x')
  let y : ℝ :=
    1 - (((((a5 * t + a4) * t) + a3) * t + a2) * t + a1) * t * Real.exp (-x' * x')
  sign * y

/-- `BlackScholes::norm_cdf`: standard normal CDF via the error function. -/
def BlackScholes.norm_cdf (x : ℝ) : ℝ :=
  0.5 * (1 + BlackScholes.erf (x / Real.sqrt 2))

/-- `BlackScholes::norm_pdf`: standard normal density. -/
def BlackScholes.norm_pdf (x : ℝ) : ℝ :=
  Real.exp (-0.5 * x ^ 2) / Real.sqrt (2 * Real.pi)

/-- `BlackScholes::price`. -/
def BlackScholes.price (m : BlackScholes) (option_type : OptionType) : ℝ :=
  let d1 := m.d1
  let d2 := m.d2
  match option_type with
  | OptionType.Call =>
      m.spot_price * Real.exp (-m.dividend_yield * m.time_to_expiry)
          * BlackScholes.norm_cdf d1
        - m.strike_price * Real.exp (-m.risk_free_rate * m.time_to_expiry)
          * BlackScholes.norm_cdf d2
  | OptionType.Put =>
      m.strike_price * Real.exp (-m.risk_free_rate * m.time_to_expiry)
          * BlackScholes.norm_cdf (-d2)
        - m.spot_price * Real.exp (-m.dividend_yield * m.time_to_expiry)
          * BlackScholes.norm_cdf (-d1)

/-- `BlackScholes::greeks`. -/
def BlackScholes.greeks (m : BlackScholes) (option_type : OptionType) : Greeks :=
  let d1 := m.d1
  let d2 := m.d2
  let sqrt_t := Real.sqrt m.time_to_expiry
  let discount := Real.exp (-m.risk_free_rate * m.time_to_expiry)
  let dividend_discount := Real.exp (-m.dividend_yield * m.time_to_expiry)
  let delta :=
    match option_type with
    | OptionType.Call => dividend_discount * BlackScholes.norm_cdf d1
    | OptionType.Put => -dividend_discount * BlackScholes.norm_cdf (-d1)
  let gamma := dividend_discount * BlackScholes.norm_pdf d1
    / (m.spot_price * m.volatility * sqrt_t)
  let vega := m.spot_price * dividend_discount * BlackScholes.norm_pdf d1 * sqrt_t
    / 100
  let theta :=
    match option_type with
    | OptionType.Call =>
        (-(m.spot_price * BlackScholes.norm_pdf d1 * m.volatility
              * dividend_discount) / (2 * sqrt_t)
          - m.dividend_yield * m.spot_price * BlackScholes.norm_cdf d1
              * dividend_discount
          + m.risk_free_rate * m.strike_price * discount
              * BlackScholes.norm_cdf d2) / 365
    | OptionType.Put =>
        (-(m.spot_price * BlackScholes.norm_pdf d1 * m.volatility
              * dividend_discount) / (2 * sqrt_t)
          + m.dividend_yield * m.spot_price * BlackScholes.norm_cdf (-d1)
              * dividend_discount
          - m.risk_free_rate * m.strike_price * discount
              * BlackScholes.norm_cdf (-d2)) / 365
  let rho :=
    match option_type with
    | OptionType.Call =>
        m.strike_price * m.time_to_expiry * discount * BlackScholes.norm_cdf d2
          / 100
    | OptionType.Put =>
        -(m.strike_price * m.time_to_expiry * discount
            * BlackScholes.norm_cdf (-d2)) / 100
  ⟨delta, gamma, vega, theta, rho⟩

/-- The Newton-Raphson loop of `BlackScholes::implied_volatility`, with the
remaining iteration budget as fuel and the current volatility guess as state.
Mirrors the source body: copy the model with the guess as volatility, check
the rescaled vega, check the tolerance, update and clamp the guess. -/
def BlackScholes.ivLoop (m : BlackScholes) (option_type : OptionType)
    (market_price tolerance : ℝ) : ℕ → ℝ → Except String ℝ
  | 0, _ => Except.error "Failed to converge"
  | fuel + 1, vol =>
    let bs : BlackScholes := { m with volatility := vol }
    let price := bs.price option_type
    let vega := (bs.greeks option_type).vega * 100
    if |vega| < 1e-10 then Except.error "Vega too small, cannot converge"
    else
      let diff := market_price - price
      if |diff| < tolerance then Except.ok vol
      else
        let vol' := vol + diff / vega
        BlackScholes.ivLoop m option_type market_price tolerance fuel
          (if vol' ≤ 0 then 0.001 else vol')

/-- `BlackScholes::implied_volatility`: run the loop from the initial
guess 0.3 with `max_iterations` as fuel. -/
def BlackScholes.implied_volatility (m : BlackScholes)
    (option_type : OptionType) (market_price : ℝ) (max_iterations : ℕ)
    (tolerance : ℝ) : Except String ℝ :=
  BlackScholes.ivLoop m option_type market_price tolerance max_iterations 0.3

/-- The d1 of the spec's words: `d1 = [ln(S/K) + (r - q + 0.5 σ²) T] / (σ √T)`.
Stated separately from `BlackScholes.d1` to compare code against spec. -/
def d1_spec (m : BlackScholes) : ℝ :=
  (Real.log (m.spot_price / m.strike_price)
      + (m.risk_free_rate - m.dividend_yield + 0.5 * m.volatility ^ 2)
        * m.time_to_expiry)
    / (m.volatility * Real.sqrt m.time_to_expiry)

/-- The d2 of the spec's words: `d2 = d1 - σ √T`. -/
def d2_spec (m : BlackScholes) : ℝ :=
  d1_spec m - m.volatility * Real.sqrt m.time_to_expiry

/-- The pricing formula of the spec's words, with `disc_r = e^{-rT}`,
`disc_q = e^{-qT}`: Call = `S disc_q N(d1) - K disc_r N(d2)`,
Put = `K disc_r N(-d2) - S disc_q N(-d1)`. -/
def price_spec (m : BlackScholes) : OptionType → ℝ
  | OptionType.Call =>
      m.spot_price * Real.exp (-m.dividend_yield * m.time_to_expiry)
          * BlackScholes.norm_cdf (d1_spec m)
        - m.strike_price * Real.exp (-m.risk_free_rate * m.time_to_expiry)
          * BlackScholes.norm_cdf (d2_spec m)
  | OptionType.Put =>
      m.strike_price * Real.exp (-m.risk_free_rate * m.time_to_expiry)
          * BlackScholes.norm_cdf (-(d2_spec m))
        - m.spot_price * Real.exp (-m.dividend_yield * m.time_to_expiry)
          * BlackScholes.norm_cdf (-(d1_spec m))

/-- The model refuting exact put-call parity: S = 10^10,
K = 10^10 e^{1/2}, T = 1, r = 0, σ = 1, q = 0, chosen so that d1 = 0. -/
def parityCexModel : BlackScholes :=
  ⟨10 ^ 10, 10 ^ 10 * Real.exp (1 / 2), 1, 0, 1, 0⟩

/-- The Abramowitz-Stegun quartic of `BlackScholes.erf` is strictly positive
on [0, 1]. -/
lemma as_quartic_pos (t : ℝ) (h0 : 0 ≤ t) (h1 : t ≤ 1) :
    0 < ((((1.061405429 * t + -1.453152027) * t + 1.421413741) * t
        + -0.284496736) * t + 0.254829592) := by
  nlinarith [sq_nonneg (t ^ 2 - 0.6845 * t), sq_nonneg (t - 0.154),
    sq_nonneg t, sq_nonneg (t * (1 - t))]

/-- The Abramowitz-Stegun quartic of `BlackScholes.erf` is at most 1.4
on [0, 1]. -/
lemma as_quartic_le (t : ℝ) (h0 : 0 ≤ t) (h1 : t ≤ 1) :
    ((((1.061405429 * t + -1.453152027) * t + 1.421413741) * t
        + -0.284496736) * t + 0.254829592) ≤ 1.4 := by
  nlinarith [mul_nonneg (mul_nonneg (mul_nonneg h0 h0) h0)
      (by nlinarith : (0:ℝ) ≤ 1.453152027 - 1.061405429 * t),
    mul_nonneg (by linarith : (0:ℝ) ≤ 1 - t)
      (by nlinarith : (0:ℝ) ≤ -0.284496736 + 1.421413741 * (t + 1))]

/-- On nonnegative inputs the implemented `erf` lies strictly between -1
and 1. -/
lemma erf_bounds_aux (x : ℝ) (hx : 0 ≤ x) :
    -1 < BlackScholes.erf x ∧ BlackScholes.erf x < 1 := by
  have hxlt : ¬ x < 0 := not_lt.2 hx
  have herf : BlackScholes.erf x
      = 1 - ((((1.061405429 * (1 / (1 + 0.3275911 * x)) + -1.453152027)
            * (1 / (1 + 0.3275911 * x)) + 1.421413741)
            * (1 / (1 + 0.3275911 * x)) + -0.284496736)
            * (1 / (1 + 0.3275911 * x)) + 0.254829592)
          * (1 / (1 + 0.3275911 * x)) * Real.exp (-x * x) := by
    simp only [BlackScholes.erf, if_neg hxlt, abs_of_nonneg hx]
    ring
  rw [herf]
  have hden : (0:ℝ) < 1 + 0.3275911 * x := by nlinarith
  set t : ℝ := 1 / (1 + 0.3275911 * x) with ht
  have htpos : 0 < t := by rw [ht]; positivity
  have htle : t ≤ 1 := by
    rw [ht, div_le_one hden]; nlinarith
  have hE0 : 0 < Real.exp (-x * x) := Real.exp_pos _
  have hE1 : Real.exp (-x * x) ≤ 1 := by
    rw [Real.exp_le_one_iff]; nlinarith
  have hq := as_quartic_pos t htpos.le htle
  have hq' := as_quartic_le t htpos.le htle
  have hqt : ((((1.061405429 * t + -1.453152027) * t + 1.421413741) * t
      + -0.284496736) * t + 0.254829592) * t ≤ 1.4 := by nlinarith
  constructor
  · nlinarith [mul_pos (mul_pos hq htpos) hE0]
  · nlinarith [mul_pos (mul_pos hq htpos) hE0]

/-- The implemented `erf` is odd away from 0 (at 0 it returns the small
residue 1e-9 instead of 0, so oddness fails there). -/
lemma erf_neg_eq (x : ℝ) (hx : x ≠ 0) :
    BlackScholes.erf (-x) = -BlackScholes.erf x := by
  rcases hx.lt_or_lt with h | h
  · simp only [BlackScholes.erf, if_pos h,
      if_neg (not_lt.2 (by linarith : (0:ℝ) ≤ -x)), abs_neg, abs_of_neg h]
    ring
  · simp only [BlackScholes.erf, if_neg (not_lt.2 h.le),
      if_pos (by linarith : -x < (0:ℝ)), abs_neg, abs_of_pos h]
    ring

/-- The implemented `erf` lies strictly between -1 and 1 everywhere. -/
lemma erf_bounds (x : ℝ) :
    -1 < BlackScholes.erf x ∧ BlackScholes.erf x < 1 := by
  rcases le_or_lt 0 x with hx | hx
  · exact erf_bounds_aux x hx
  · have h := erf_bounds_aux (-x) (by linarith)
    have he : BlackScholes.erf (-x) = -BlackScholes.erf x :=
      erf_neg_eq x (ne_of_lt hx)
    rw [he] at h
    exact ⟨by linarith [h.2], by linarith [h.1]⟩

/-- The implemented `norm_cdf` is strictly positive. -/
lemma norm_cdf_pos (x : ℝ) : 0 < BlackScholes.norm_cdf x := by
  have h := (erf_bounds (x / Real.sqrt 2)).1
  unfold BlackScholes.norm_cdf
  linarith

/-- The implemented `norm_cdf` is strictly below 1. -/
lemma norm_cdf_lt_one (x : ℝ) : BlackScholes.norm_cdf x < 1 := by
  have h := (erf_bounds (x / Real.sqrt 2)).2
  unfold BlackScholes.norm_cdf
  linarith

/-- Away from 0, `norm_cdf x + norm_cdf (-x) = 1` exactly. -/
lemma norm_cdf_add_neg (x : ℝ) (hx : x ≠ 0) :
    BlackScholes.norm_cdf x + BlackScholes.norm_cdf (-x) = 1 := by
  unfold BlackScholes.norm_cdf
  rw [neg_div, erf_neg_eq _ (div_ne_zero hx
    (Real.sqrt_ne_zero'.2 (by norm_num)))]
  ring

/-- Closed form of the implemented `erf` on nonnegative inputs. -/
lemma erf_eq_of_nonneg (x : ℝ) (hx : 0 ≤ x) :
    BlackScholes.erf x
      = 1 - ((((1.061405429 * (1 / (1 + 0.3275911 * x)) + -1.453152027)
            * (1 / (1 + 0.3275911 * x)) + 1.421413741)
            * (1 / (1 + 0.3275911 * x)) + -0.284496736)
            * (1 / (1 + 0.3275911 * x)) + 0.254829592)
          * (1 / (1 + 0.3275911 * x)) * Real.exp (-x * x) := by
  simp only [BlackScholes.erf, if_neg (not_lt.2 hx), abs_of_nonneg hx]
  ring

/-- For x ≥ 1 the implemented `erf` is strictly positive. -/
lemma erf_pos_of_one_le (x : ℝ) (hx : 1 ≤ x) : 0 < BlackScholes.erf x := by
  have hx0 : 0 ≤ x := by linarith
  rw [erf_eq_of_nonneg x hx0]
  have hden : (0:ℝ) < 1 + 0.3275911 * x := by nlinarith
  set t : ℝ := 1 / (1 + 0.3275911 * x) with ht
  have htpos : 0 < t := by rw [ht]; positivity
  have htle : t ≤ 1 := by rw [ht, div_le_one hden]; nlinarith
  have htle' : t ≤ 0.7533 := by
    rw [ht, div_le_iff hden]; nlinarith
  have hq := as_quartic_pos t htpos.le htle
  have hq' := as_quartic_le t htpos.le htle
  have hE0 : 0 < Real.exp (-x * x) := Real.exp_pos _
  have hE : Real.exp (-x * x) ≤ 1 / 2 := by
    rw [show (-x * x : ℝ) = -(x * x) by ring, Real.exp_neg,
      inv_le (Real.exp_pos _) (by norm_num)]
    calc (1 / 2 : ℝ)⁻¹ = 2 := by norm_num
    _ ≤ x * x + 1 := by nlinarith
    _ ≤ Real.exp (x * x) := by linarith [Real.add_one_le_exp (x * x)]
  have h1 : ((((1.061405429 * t + -1.453152027) * t + 1.421413741) * t
      + -0.284496736) * t + 0.254829592) * t ≤ 1.4 * 0.7533 :=
    mul_le_mul hq' htle' htpos.le (by norm_num)
  have h2 : ((((1.061405429 * t + -1.453152027) * t + 1.421413741) * t
      + -0.284496736) * t + 0.254829592) * t * Real.exp (-x * x)
      ≤ 1.4 * 0.7533 * (1 / 2) :=
    mul_le_mul h1 hE hE0.le (by norm_num)
  nlinarith

/-- The delta field of `greeks` for a Call. -/
lemma greeks_delta_call (m : BlackScholes) :
    (m.greeks OptionType.Call).delta
      = Real.exp (-m.dividend_yield * m.time_to_expiry)
        * BlackScholes.norm_cdf m.d1 := rfl

/-- The delta field of `greeks` for a Put. -/
lemma greeks_delta_put (m : BlackScholes) :
    (m.greeks OptionType.Put).delta
      = -Real.exp (-m.dividend_yield * m.time_to_expiry)
        * BlackScholes.norm_cdf (-m.d1) := rfl

/-- The gamma field of `greeks` (identical for Call and Put). -/
lemma greeks_gamma (m : BlackScholes) (k : OptionType) :
    (m.greeks k).gamma
      = Real.exp (-m.dividend_yield * m.time_to_expiry)
          * BlackScholes.norm_pdf m.d1
        / (m.spot_price * m.volatility * Real.sqrt m.time_to_expiry) := rfl

/-- The vega field of `greeks` (identical for Call and Put). -/
lemma greeks_vega (m : BlackScholes) (k : OptionType) :
    (m.greeks k).vega
      = m.spot_price * Real.exp (-m.dividend_yield * m.time_to_expiry)
          * BlackScholes.norm_pdf m.d1 * Real.sqrt m.time_to_expiry / 100 :=
  rfl

/-- Claim C1: for every model with S, K, T, σ > 0 and any r, q, `price`
computes the Black-Scholes closed form of the spec: d1 and d2 are exactly the
spec's formulas, and the Call/Put prices are the spec's discounted
`norm_cdf` combinations. -/
theorem price_computes_closed_form (m : BlackScholes)
    (hS : 0 < m.spot_price) (hK : 0 < m.strike_price)
    (hT : 0 < m.time_to_expiry) (hv : 0 < m.volatility) :
    m.d1 = d1_spec m ∧ m.d2 = d2_spec m ∧
      m.price OptionType.Call = price_spec m OptionType.Call ∧
      m.price OptionType.Put = price_spec m OptionType.Put :=
  ⟨rfl, rfl, rfl, rfl⟩

/-- Witness for C1 at the concrete model S=100, K=100, T=1, r=0.05, σ=0.2, q=0. -/
theorem price_computes_closed_form_witness :
    (0:ℝ) < 100 ∧
      BlackScholes.price ⟨100, 100, 1, 0.05, 0.2, 0⟩ OptionType.Call
        = price_spec ⟨100, 100, 1, 0.05, 0.2, 0⟩ OptionType.Call :=
  ⟨by norm_num,
    (price_computes_closed_form ⟨100, 100, 1, 0.05, 0.2, 0⟩ (by norm_num)
      (by norm_num) (by norm_num) (by norm_num)).2.2.1⟩

/-- The implemented `erf` at 0 returns the residue 1e-9 (the five
Abramowitz-Stegun coefficients sum to 0.999999999, not 1), not 0. -/
lemma erf_zero : BlackScholes.erf 0 = 1e-9 := by
  simp only [BlackScholes.erf, lt_self_iff_false, if_false, abs_zero,
    mul_zero, zero_mul, neg_zero, Real.exp_zero]
  norm_num

/-- The implemented `norm_cdf` at 0 is (1 + 1e-9)/2, not 1/2. -/
lemma norm_cdf_zero : BlackScholes.norm_cdf 0 = (1 + 1e-9) / 2 := by
  unfold BlackScholes.norm_cdf
  rw [zero_div, erf_zero]
  ring

/-- Claim C2 (amended): put-call parity holds exactly in real arithmetic for
every valid model whose d1 and d2 are both nonzero. -/
theorem put_call_parity (m : BlackScholes)
    (hS : 0 < m.spot_price) (hK : 0 < m.strike_price)
    (hT : 0 < m.time_to_expiry) (hv : 0 < m.volatility)
    (hd1 : m.d1 ≠ 0) (hd2 : m.d2 ≠ 0) :
    m.price OptionType.Call - m.price OptionType.Put
      = m.spot_price * Real.exp (-m.dividend_yield * m.time_to_expiry)
        - m.strike_price * Real.exp (-m.risk_free_rate * m.time_to_expiry) := by
  have h1 := norm_cdf_add_neg m.d1 hd1
  have h2 := norm_cdf_add_neg m.d2 hd2
  have e1 : BlackScholes.norm_cdf (-m.d1) = 1 - BlackScholes.norm_cdf m.d1 :=
    by linarith
  have e2 : BlackScholes.norm_cdf (-m.d2) = 1 - BlackScholes.norm_cdf m.d2 :=
    by linarith
  simp only [BlackScholes.price]
  rw [e1, e2]
  ring

/-- Witness for C2 (amended) at S=1, K=1, T=1, r=0, σ=1, q=0, where
d1 = 1/2 and d2 = -1/2. -/
theorem put_call_parity_witness :
    BlackScholes.d1 ⟨1, 1, 1, 0, 1, 0⟩ ≠ 0 ∧
      BlackScholes.price ⟨1, 1, 1, 0, 1, 0⟩ OptionType.Call
          - BlackScholes.price ⟨1, 1, 1, 0, 1, 0⟩ OptionType.Put
        = 1 * Real.exp (-0 * 1) - 1 * Real.exp (-0 * 1) := by
  have hd1 : BlackScholes.d1 ⟨1, 1, 1, 0, 1, 0⟩ = 1 / 2 := by
    unfold BlackScholes.d1
    norm_num [Real.sqrt_one, Real.log_one]
  have hd2 : BlackScholes.d2 ⟨1, 1, 1, 0, 1, 0⟩ = -(1 / 2) := by
    unfold BlackScholes.d2
    rw [hd1]
    norm_num [Real.sqrt_one]
  refine ⟨by rw [hd1]; norm_num, ?_⟩
  exact put_call_parity ⟨1, 1, 1, 0, 1, 0⟩ (by norm_num) (by norm_num)
    (by norm_num) (by norm_num) (by rw [hd1]; norm_num) (by rw [hd2]; norm_num)

/-- Counterexample for C2: on a valid model with d1 = 0, the parity defect
equals S · erf(0) = 10^10 · 1e-9 = 10, far beyond the 1e-6 tolerance, so
parity is neither exact nor within tolerance there. -/
theorem put_call_parity_cex :
    (0 < parityCexModel.spot_price ∧ 0 < parityCexModel.strike_price ∧
      0 < parityCexModel.time_to_expiry ∧ 0 < parityCexModel.volatility) ∧
    parityCexModel.price OptionType.Call - parityCexModel.price OptionType.Put
        - (parityCexModel.spot_price
            * Real.exp (-parityCexModel.dividend_yield
                * parityCexModel.time_to_expiry)
          - parityCexModel.strike_price
            * Real.exp (-parityCexModel.risk_free_rate
                * parityCexModel.time_to_expiry)) = 10 ∧
    ¬ |parityCexModel.price OptionType.Call
        - parityCexModel.price OptionType.Put
        - (parityCexModel.spot_price
            * Real.exp (-parityCexModel.dividend_yield
                * parityCexModel.time_to_expiry)
          - parityCexModel.strike_price
            * Real.exp (-parityCexModel.risk_free_rate
                * parityCexModel.time_to_expiry))| < 1e-6 := by
  have hd1 : parityCexModel.d1 = 0 := by
    unfold BlackScholes.d1 parityCexModel
    rw [div_mul_cancel_left₀ (by norm_num : (10:ℝ) ^ 10 ≠ 0),
      Real.log_inv, Real.log_exp]
    norm_num [Real.sqrt_one]
  have hd2 : parityCexModel.d2 = -1 := by
    unfold BlackScholes.d2
    rw [hd1]
    norm_num [Real.sqrt_one, parityCexModel]
  have hsum := norm_cdf_add_neg 1 one_ne_zero
  have hdev : parityCexModel.price OptionType.Call
      - parityCexModel.price OptionType.Put
      - (parityCexModel.spot_price
          * Real.exp (-parityCexModel.dividend_yield
              * parityCexModel.time_to_expiry)
        - parityCexModel.strike_price
          * Real.exp (-parityCexModel.risk_free_rate
              * parityCexModel.time_to_expiry)) = 10 := by
    simp only [BlackScholes.price, hd1, hd2]
    show (10:ℝ) ^ 10 * Real.exp (-0 * 1) * BlackScholes.norm_cdf 0
        - 10 ^ 10 * Real.exp (1 / 2) * Real.exp (-0 * 1)
          * BlackScholes.norm_cdf (-1)
        - (10 ^ 10 * Real.exp (1 / 2) * Real.exp (-0 * 1)
            * BlackScholes.norm_cdf (- -1)
          - 10 ^ 10 * Real.exp (-0 * 1) * BlackScholes.norm_cdf (-0))
        - (10 ^ 10 * Real.exp (-0 * 1)
          - 10 ^ 10 * Real.exp (1 / 2) * Real.exp (-0 * 1)) = 10
    rw [show (- -1 : ℝ) = 1 by norm_num, show (-0 : ℝ) = 0 by norm_num,
      show (0 * 1 : ℝ) = 0 by norm_num, Real.exp_zero, norm_cdf_zero]
    have e : BlackScholes.norm_cdf (-1) = 1 - BlackScholes.norm_cdf 1 := by
      linarith
    rw [e]
    ring_nf
  refine ⟨⟨?_, ?_, ?_, ?_⟩, hdev, ?_⟩
  · norm_num [parityCexModel]
  · unfold parityCexModel
    positivity
  · norm_num [parityCexModel]
  · norm_num [parityCexModel]
  · rw [hdev]
    norm_num

/-- Claim C3: construction succeeds exactly on S, K, T, σ > 0 (any r, q),
returning the six given values; otherwise it fails with the message of the
first violated constraint, checked in the order spot, strike, expiry,
volatility with short-circuiting. -/
theorem new_validates (S K T r v q : ℝ) :
    (0 < S → 0 < K → 0 < T → 0 < v →
      BlackScholes.new S K T r v q = Except.ok ⟨S, K, T, r, v, q⟩) ∧
    (S ≤ 0 →
      BlackScholes.new S K T r v q
        = Except.error "Spot price must be positive") ∧
    (0 < S → K ≤ 0 →
      BlackScholes.new S K T r v q
        = Except.error "Strike price must be positive") ∧
    (0 < S → 0 < K → T ≤ 0 →
      BlackScholes.new S K T r v q
        = Except.error "Time to expiry must be positive") ∧
    (0 < S → 0 < K → 0 < T → v ≤ 0 →
      BlackScholes.new S K T r v q
        = Except.error "Volatility must be positive") := by
  refine ⟨fun hS hK hT hv => ?_, fun h => ?_, fun hS h => ?_,
    fun hS hK h => ?_, fun hS hK hT h => ?_⟩
  · simp [BlackScholes.new, not_le.2 hS, not_le.2 hK, not_le.2 hT, not_le.2 hv]
  · simp [BlackScholes.new, h]
  · simp [BlackScholes.new, not_le.2 hS, h]
  · simp [BlackScholes.new, not_le.2 hS, not_le.2 hK, h]
  · simp [BlackScholes.new, not_le.2 hS, not_le.2 hK, not_le.2 hT, h]

/-- Witness for C3: a succeeding construction and a failing one. -/
theorem new_validates_witness :
    BlackScholes.new 100 100 1 0.05 0.2 0
        = Except.ok ⟨100, 100, 1, 0.05, 0.2, 0⟩ ∧
      BlackScholes.new (-100) 100 1 0.05 0.2 0
        = Except.error "Spot price must be positive" :=
  ⟨(new_validates 100 100 1 0.05 0.2 0).1 (by norm_num) (by norm_num)
      (by norm_num) (by norm_num),
    (new_validates (-100) 100 1 0.05 0.2 0).2.1 (by norm_num)⟩

/-- Claim C4 (amended): for every valid model with nonnegative dividend
yield, Call delta lies strictly in (0, 1) and Put delta strictly in (-1, 0).
(With q < 0 the dividend discount e^{-qT} exceeds 1 and the bounds can
fail, see the counterexample.) -/
theorem delta_ranges (m : BlackScholes)
    (hS : 0 < m.spot_price) (hK : 0 < m.strike_price)
    (hT : 0 < m.time_to_expiry) (hv : 0 < m.volatility)
    (hq : 0 ≤ m.dividend_yield) :
    (0 < (m.greeks OptionType.Call).delta
      ∧ (m.greeks OptionType.Call).delta < 1)
    ∧ (-1 < (m.greeks OptionType.Put).delta
      ∧ (m.greeks OptionType.Put).delta < 0) := by
  have hdq0 : 0 < Real.exp (-m.dividend_yield * m.time_to_expiry) :=
    Real.exp_pos _
  have hdq1 : Real.exp (-m.dividend_yield * m.time_to_expiry) ≤ 1 := by
    rw [Real.exp_le_one_iff]
    nlinarith
  have hN1 := norm_cdf_pos m.d1
  have hN2 := norm_cdf_lt_one m.d1
  have hN3 := norm_cdf_pos (-m.d1)
  have hN4 := norm_cdf_lt_one (-m.d1)
  rw [greeks_delta_call, greeks_delta_put]
  refine ⟨⟨mul_pos hdq0 hN1, ?_⟩, ⟨?_, ?_⟩⟩ <;> nlinarith

/-- Witness for C4 (amended) at S=100, K=100, T=1, r=0.05, σ=0.2, q=0. -/
theorem delta_ranges_witness :
    (0 < (BlackScholes.greeks ⟨100, 100, 1, 0.05, 0.2, 0⟩
          OptionType.Call).delta
      ∧ (BlackScholes.greeks ⟨100, 100, 1, 0.05, 0.2, 0⟩
          OptionType.Call).delta < 1)
    ∧ (-1 < (BlackScholes.greeks ⟨100, 100, 1, 0.05, 0.2, 0⟩
          OptionType.Put).delta
      ∧ (BlackScholes.greeks ⟨100, 100, 1, 0.05, 0.2, 0⟩
          OptionType.Put).delta < 0) :=
  delta_ranges ⟨100, 100, 1, 0.05, 0.2, 0⟩ (by norm_num) (by norm_num)
    (by norm_num) (by norm_num) (by norm_num)

/-- Counterexample for C4: on the valid model S=1, K=1, T=1, r=0, σ=1,
q=-1 (negative dividend yield), d1 = 1.5 and the Call delta
e^{1}·N(1.5) exceeds 1. -/
theorem delta_range_cex :
    ((0:ℝ) < 1 ∧ (0:ℝ) < 1 ∧ (0:ℝ) < 1 ∧ (0:ℝ) < 1) ∧
      1 < (BlackScholes.greeks ⟨1, 1, 1, 0, 1, -1⟩ OptionType.Call).delta := by
  have hd1 : BlackScholes.d1 ⟨1, 1, 1, 0, 1, -1⟩ = 1.5 := by
    unfold BlackScholes.d1
    norm_num [Real.log_one, Real.sqrt_one]
  refine ⟨⟨by norm_num, by norm_num, by norm_num, by norm_num⟩, ?_⟩
  rw [greeks_delta_call, hd1]
  have hs2 : Real.sqrt 2 ≤ 1.5 := by
    nlinarith [Real.sq_sqrt (by norm_num : (0:ℝ) ≤ 2), Real.sqrt_nonneg 2]
  have hs2' : 0 < Real.sqrt 2 := Real.sqrt_pos.2 (by norm_num)
  have hz : 1 ≤ (1.5 : ℝ) / Real.sqrt 2 := by
    rw [le_div_iff hs2']
    linarith
  have herf : 0 < BlackScholes.erf (1.5 / Real.sqrt 2) :=
    erf_pos_of_one_le _ hz
  have hN : (0.5 : ℝ) < BlackScholes.norm_cdf 1.5 := by
    unfold BlackScholes.norm_cdf
    linarith
  have he : 2 ≤ Real.exp (1 : ℝ) := by
    linarith [Real.add_one_le_exp (1 : ℝ)]
  rw [show (- (-1 : ℝ) * 1) = 1 by norm_num]
  have h1 : (1:ℝ) ≤ Real.exp (1 : ℝ) * 0.5 := by linarith
  have h2 : Real.exp (1 : ℝ) * 0.5
      < Real.exp (1 : ℝ) * BlackScholes.norm_cdf 1.5 :=
    mul_lt_mul_of_pos_left hN (Real.exp_pos 1)
  linarith

/-- Claim C5: gamma and vega are strictly positive for every valid model and
both option kinds. -/
theorem gamma_vega_pos (m : BlackScholes)
    (hS : 0 < m.spot_price) (hK : 0 < m.strike_price)
    (hT : 0 < m.time_to_expiry) (hv : 0 < m.volatility) (k : OptionType) :
    0 < (m.greeks k).gamma ∧ 0 < (m.greeks k).vega := by
  have hpdf : 0 < BlackScholes.norm_pdf m.d1 := by
    unfold BlackScholes.norm_pdf
    exact div_pos (Real.exp_pos _)
      (Real.sqrt_pos.2 (by positivity))
  have hst : 0 < Real.sqrt m.time_to_expiry := Real.sqrt_pos.2 hT
  rw [greeks_gamma, greeks_vega]
  constructor
  · exact div_pos (mul_pos (Real.exp_pos _) hpdf)
      (mul_pos (mul_pos hS hv) hst)
  · exact div_pos (mul_pos (mul_pos (mul_pos hS (Real.exp_pos _)) hpdf) hst)
      (by norm_num)

/-- Witness for C5 at S=100, K=100, T=1, r=0.05, σ=0.2, q=0 for a Call. -/
theorem gamma_vega_pos_witness :
    0 < (BlackScholes.greeks ⟨100, 100, 1, 0.05, 0.2, 0⟩
        OptionType.Call).gamma
    ∧ 0 < (BlackScholes.greeks ⟨100, 100, 1, 0.05, 0.2, 0⟩
        OptionType.Call).vega :=
  gamma_vega_pos ⟨100, 100, 1, 0.05, 0.2, 0⟩ (by norm_num) (by norm_num)
    (by norm_num) (by norm_num) OptionType.Call

/-- The implemented `norm_pdf` is strictly positive. -/
lemma norm_pdf_pos (x : ℝ) : 0 < BlackScholes.norm_pdf x := by
  unfold BlackScholes.norm_pdf
  exact div_pos (Real.exp_pos _) (Real.sqrt_pos.2 (by positivity))

/-- The implemented `norm_pdf` is at most 1. -/
lemma norm_pdf_le_one (x : ℝ) : BlackScholes.norm_pdf x ≤ 1 := by
  unfold BlackScholes.norm_pdf
  have hA : Real.exp (-0.5 * x ^ 2) ≤ 1 := by
    rw [Real.exp_le_one_iff]
    nlinarith [sq_nonneg x]
  have hB : 1 ≤ Real.sqrt (2 * Real.pi) := by
    rw [show (1:ℝ) = Real.sqrt 1 from Real.sqrt_one.symm]
    exact Real.sqrt_le_sqrt (by nlinarith [Real.pi_gt_three])
  rw [div_le_one (by positivity)]
  linarith

/-- Unfolding the Newton loop at zero fuel. -/
lemma ivLoop_zero (m : BlackScholes) (k : OptionType) (mp tol vol : ℝ) :
    BlackScholes.ivLoop m k mp tol 0 vol
      = Except.error "Failed to converge" := rfl

/-- Unfolding one step of the Newton loop. -/
lemma ivLoop_succ (m : BlackScholes) (k : OptionType) (mp tol : ℝ)
    (fuel : ℕ) (vol : ℝ) :
    BlackScholes.ivLoop m k mp tol (fuel + 1) vol
      = if |(BlackScholes.greeks { m with volatility := vol } k).vega * 100|
            < 1e-10
        then Except.error "Vega too small, cannot converge"
        else if |mp - BlackScholes.price { m with volatility := vol } k| < tol
        then Except.ok vol
        else BlackScholes.ivLoop m k mp tol fuel
          (if vol + (mp - BlackScholes.price { m with volatility := vol } k)
                / ((BlackScholes.greeks { m with volatility := vol } k).vega
                    * 100) ≤ 0
           then 0.001
           else vol
              + (mp - BlackScholes.price { m with volatility := vol } k)
                / ((BlackScholes.greeks { m with volatility := vol } k).vega
                    * 100)) := rfl

/-- Invariant of the Newton loop: started from a positive guess, an Ok
result is positive and re-prices the model to the market price within the
tolerance. -/
lemma ivLoop_ok_inv (m : BlackScholes) (k : OptionType) (mp tol : ℝ) :
    ∀ (fuel : ℕ) (vol v : ℝ), 0 < vol →
      BlackScholes.ivLoop m k mp tol fuel vol = Except.ok v →
      0 < v ∧ |mp - BlackScholes.price { m with volatility := v } k| < tol := by
  intro fuel
  induction fuel with
  | zero =>
    intro vol v hvol h
    rw [ivLoop_zero] at h
    exact absurd h (by simp)
  | succ f ih =>
    intro vol v hvol h
    rw [ivLoop_succ] at h
    by_cases h1 : |(BlackScholes.greeks { m with volatility := vol } k).vega
        * 100| < 1e-10
    · rw [if_pos h1] at h
      exact absurd h (by simp)
    · rw [if_neg h1] at h
      by_cases h2 : |mp - BlackScholes.price { m with volatility := vol } k|
          < tol
      · rw [if_pos h2] at h
        have hv : vol = v := by
          simpa using h
        subst hv
        exact ⟨hvol, h2⟩
      · rw [if_neg h2] at h
        refine ih _ v ?_ h
        split
        · norm_num
        · next hle => exact lt_of_not_le hle

/-- Claim C6: whenever `implied_volatility` returns Ok v, v is strictly
positive and the model re-priced with volatility v reproduces the market
price within the tolerance. -/
theorem implied_volatility_ok (m : BlackScholes) (k : OptionType)
    (mp : ℝ) (n : ℕ) (tol v : ℝ)
    (h : m.implied_volatility k mp n tol = Except.ok v) :
    0 < v ∧ |mp - BlackScholes.price { m with volatility := v } k| < tol :=
  ivLoop_ok_inv m k mp tol n 0.3 v (by norm_num) h

/-- A concrete Ok run of the solver: for S=1, K=1, T=1, r=0, σ=0.3, q=0 and
market price equal to the model Call price, the solver converges at once to
the initial guess 0.3. -/
lemma implied_volatility_ok_run :
    BlackScholes.implied_volatility ⟨1, 1, 1, 0, 0.3, 0⟩ OptionType.Call
        (BlackScholes.price ⟨1, 1, 1, 0, 0.3, 0⟩ OptionType.Call) 1 1e-6
      = Except.ok 0.3 := by
  have hm : ({ (⟨1, 1, 1, 0, 0.3, 0⟩ : BlackScholes) with
      volatility := (0.3:ℝ) } : BlackScholes) = ⟨1, 1, 1, 0, 0.3, 0⟩ := rfl
  have hd1 : BlackScholes.d1 ⟨1, 1, 1, 0, 0.3, 0⟩ = 0.15 := by
    unfold BlackScholes.d1
    norm_num [Real.log_one, Real.sqrt_one]
  have hvega : (BlackScholes.greeks ⟨1, 1, 1, 0, 0.3, 0⟩
      OptionType.Call).vega * 100 = BlackScholes.norm_pdf 0.15 := by
    rw [greeks_vega, hd1]
    norm_num [Real.sqrt_one]
  have hpdf := norm_pdf_pos 0.15
  have hpdf_lb : (1e-10 : ℝ) ≤ BlackScholes.norm_pdf 0.15 := by
    unfold BlackScholes.norm_pdf
    have hA : (0.98:ℝ) ≤ Real.exp (-0.5 * (0.15:ℝ) ^ 2) := by
      have := Real.add_one_le_exp (-0.5 * (0.15:ℝ) ^ 2)
      nlinarith
    have hB : Real.sqrt (2 * Real.pi) ≤ 2.51 := by
      nlinarith [Real.sq_sqrt (by positivity : (0:ℝ) ≤ 2 * Real.pi),
        Real.sqrt_nonneg (2 * Real.pi), Real.pi_lt_315]
    have hB0 : 0 < Real.sqrt (2 * Real.pi) :=
      Real.sqrt_pos.2 (by positivity)
    rw [le_div_iff hB0]
    nlinarith
  show BlackScholes.ivLoop ⟨1, 1, 1, 0, 0.3, 0⟩ OptionType.Call
      (BlackScholes.price ⟨1, 1, 1, 0, 0.3, 0⟩ OptionType.Call) 1e-6 (0 + 1)
      0.3 = Except.ok 0.3
  rw [ivLoop_succ, hm, hvega,
    if_neg (by rw [abs_of_pos hpdf]; exact not_lt.2 hpdf_lb),
    sub_self, if_pos (by rw [abs_zero]; norm_num)]

/-- Witness for C6: the concrete Ok run above, together with the positivity
and tolerance conclusions at that input. -/
theorem implied_volatility_ok_witness :
    BlackScholes.implied_volatility ⟨1, 1, 1, 0, 0.3, 0⟩ OptionType.Call
        (BlackScholes.price ⟨1, 1, 1, 0, 0.3, 0⟩ OptionType.Call) 1 1e-6
      = Except.ok 0.3
    ∧ (0 < (0.3:ℝ)
      ∧ |BlackScholes.price ⟨1, 1, 1, 0, 0.3, 0⟩ OptionType.Call
          - BlackScholes.price
              { (⟨1, 1, 1, 0, 0.3, 0⟩ : BlackScholes) with
                volatility := (0.3:ℝ) } OptionType.Call| < 1e-6) :=
  ⟨implied_volatility_ok_run,
    implied_volatility_ok ⟨1, 1, 1, 0, 0.3, 0⟩ OptionType.Call
      (BlackScholes.price ⟨1, 1, 1, 0, 0.3, 0⟩ OptionType.Call) 1 1e-6 0.3
      implied_volatility_ok_run⟩

/-- Claim C7: at any iteration with fuel left, if the rescaled vega at the
current guess is smaller than 1e-10 in absolute value, the loop fails with
"Vega too small, cannot converge" — even when the current price already
matches the market price within the tolerance, since the vega check precedes
the tolerance check. -/
theorem ivLoop_vega_guard (m : BlackScholes) (k : OptionType)
    (mp tol : ℝ) (fuel : ℕ) (vol : ℝ) (hfuel : 0 < fuel)
    (hvega : |(BlackScholes.greeks { m with volatility := vol } k).vega * 100|
      < 1e-10)
    (hdiff : |mp - BlackScholes.price { m with volatility := vol } k| < tol) :
    BlackScholes.ivLoop m k mp tol fuel vol
      = Except.error "Vega too small, cannot converge" := by
  obtain ⟨f, rfl⟩ : ∃ f, fuel = f + 1 := ⟨fuel - 1, by omega⟩
  rw [ivLoop_succ, if_pos hvega]

/-- Witness for C7: at S=1, K=1, T=1e-30, r=0, σ=1, q=0 and guess 1, the
rescaled vega is at most 1e-15, the market price matches exactly, and the
loop still fails with the vega reason. -/
theorem ivLoop_vega_guard_witness :
    |(BlackScholes.greeks { (⟨1, 1, 1 / 10 ^ 30, 0, 1, 0⟩ : BlackScholes) with
          volatility := (1:ℝ) } OptionType.Call).vega * 100| < 1e-10
    ∧ BlackScholes.ivLoop ⟨1, 1, 1 / 10 ^ 30, 0, 1, 0⟩ OptionType.Call
        (BlackScholes.price ⟨1, 1, 1 / 10 ^ 30, 0, 1, 0⟩ OptionType.Call)
        1e-6 1 1
      = Except.error "Vega too small, cannot converge" := by
  have hm : ({ (⟨1, 1, 1 / 10 ^ 30, 0, 1, 0⟩ : BlackScholes) with
      volatility := (1:ℝ) } : BlackScholes) = ⟨1, 1, 1 / 10 ^ 30, 0, 1, 0⟩ :=
    rfl
  have hs : Real.sqrt ((1:ℝ) / 10 ^ 30) = 1 / 10 ^ 15 := by
    rw [show ((1:ℝ) / 10 ^ 30) = ((1:ℝ) / 10 ^ 15) ^ 2 by norm_num]
    exact Real.sqrt_sq (by norm_num)
  have hpdf :=
    norm_pdf_pos (BlackScholes.d1 ⟨1, 1, 1 / 10 ^ 30, 0, 1, 0⟩)
  have hpdf1 :=
    norm_pdf_le_one (BlackScholes.d1 ⟨1, 1, 1 / 10 ^ 30, 0, 1, 0⟩)
  have hvega : |(BlackScholes.greeks
      { (⟨1, 1, 1 / 10 ^ 30, 0, 1, 0⟩ : BlackScholes) with
        volatility := (1:ℝ) } OptionType.Call).vega * 100| < 1e-10 := by
    rw [hm, greeks_vega, hs]
    have hcalc : (1:ℝ) * Real.exp (-0 * (1 / 10 ^ 30))
        * BlackScholes.norm_pdf (BlackScholes.d1 ⟨1, 1, 1 / 10 ^ 30, 0, 1, 0⟩)
        * (1 / 10 ^ 15) / 100 * 100
        = BlackScholes.norm_pdf
            (BlackScholes.d1 ⟨1, 1, 1 / 10 ^ 30, 0, 1, 0⟩) * (1 / 10 ^ 15) :=
      by
      rw [show (-0 * ((1:ℝ) / 10 ^ 30)) = 0 by norm_num, Real.exp_zero]
      ring
    rw [hcalc, abs_of_pos (by positivity)]
    nlinarith
  refine ⟨hvega, ivLoop_vega_guard _ _ _ _ _ _ (by norm_num) hvega ?_⟩
  rw [hm, sub_self, abs_zero]
  norm_num

/-- Claim C8: with `max_iterations = 0` the solver always fails with
"Failed to converge": the loop body never runs. -/
theorem implied_volatility_zero_iterations (m : BlackScholes)
    (option_type : OptionType) (market_price tolerance : ℝ) :
    m.implied_volatility option_type market_price 0 tolerance
      = Except.error "Failed to converge" := rfl

/-- Claim C10: the result of `implied_volatility` does not depend on the
input model's volatility field: the loop overwrites the volatility of a copy
with the current guess (initially 0.3) before every evaluation. -/
theorem implied_volatility_ignores_volatility (m₁ m₂ : BlackScholes)
    (option_type : OptionType) (market_price : ℝ) (max_iterations : ℕ)
    (tolerance : ℝ)
    (hS : m₁.spot_price = m₂.spot_price)
    (hK : m₁.strike_price = m₂.strike_price)
    (hT : m₁.time_to_expiry = m₂.time_to_expiry)
    (hr : m₁.risk_free_rate = m₂.risk_free_rate)
    (hq : m₁.dividend_yield = m₂.dividend_yield) :
    m₁.implied_volatility option_type market_price max_iterations tolerance
      = m₂.implied_volatility option_type market_price max_iterations
          tolerance := by
  have hupd : ∀ x : ℝ, ({ m₁ with volatility := x } : BlackScholes)
      = { m₂ with volatility := x } := by
    intro x; cases m₁; cases m₂; simp_all
  have hloop : ∀ fuel vol,
      BlackScholes.ivLoop m₁ option_type market_price tolerance fuel vol
        = BlackScholes.ivLoop m₂ option_type market_price tolerance fuel
            vol := by
    intro fuel
    induction fuel with
    | zero => intro vol; rfl
    | succ f ih => intro vol; simp only [BlackScholes.ivLoop, hupd, ih]
  exact hloop max_iterations 0.3

/-- Witness for C10: two concrete models differing only in volatility give
the same implied-volatility result. -/
theorem implied_volatility_ignores_volatility_witness :
    BlackScholes.implied_volatility ⟨100, 100, 1, 0.05, 0.2, 0⟩
        OptionType.Call 10 5 1e-6
      = BlackScholes.implied_volatility ⟨100, 100, 1, 0.05, 0.9, 0⟩
          OptionType.Call 10 5 1e-6 :=
  implied_volatility_ignores_volatility _ _ _ _ _ _ rfl rfl rfl rfl rfl

end
